import Mathlib

/-!
# Verification of the wtfs namespace/inode operations (src/src/inode.c)

A shallow embedding of the wtfs inode operations `wtfs_create`, `wtfs_lookup`,
`wtfs_unlink` and `wtfs_mkdir` from `src/src/inode.c`, together with the
collaborating helpers (directory-entry store, inode allocator/cache,
`iput`/link-count maintenance) that the repository keeps outside the staged
sources; those helpers are modelled from the spec's contracts (§4.1, §4.2).

Filesystem state is a partial map from inode numbers to inodes; each inode
carries its kind, mode, link count, ctime and a directory-entry payload
(a list of (name, inode-number) pairs). The operations are translated
statement by statement from the C source; the theorems settle the frozen
claims about them.
-/

/-- The three object kinds of the data model (spec §3). -/
inductive FileKind where
  | regFile
  | directory
  | symlink
deriving DecidableEq, Repr

/-- Error taxonomy (spec §7). -/
inductive Err where
  | NotFound
  | Duplicate
  | NotEmpty
  | NoSpace
  | NoFreeInode
  | NameTooLong
  | InvalidKind
  | Corrupt
deriving DecidableEq, Repr

/-- An inode: identifier, kind, mode, link count, ctime, and directory-entry
payload (spec §3; entries are `(name, inode_id)` pairs, used only when the
inode is a directory). -/
structure Inode where
  ino : Nat
  kind : FileKind
  mode : Nat
  linkCount : Nat
  ctime : Nat
  entries : List (String × Nat)
deriving DecidableEq, Repr

/-- Filesystem state: the on-disk/in-cache inode store (a partial map from
inode numbers), the next fresh inode number, the number of free inode slots,
the per-directory payload capacity (entries per directory, block-layer bound),
the maximum name length, and the current time. -/
structure FSState where
  store : Nat → Option Inode
  nextIno : Nat
  freeInodes : Nat
  capacity : Nat
  nameMax : Nat
  time : Nat

/-- File-kind mask, as in `linux/stat.h`. -/
def S_IFMT : Nat := 0xF000

/-- Regular-file kind bits. -/
def S_IFREG : Nat := 0x8000

/-- Directory kind bits. -/
def S_IFDIR : Nat := 0x4000

/-- Symbolic-link kind bits. -/
def S_IFLNK : Nat := 0xA000

/-- Kind derived from a mode's `S_IFMT` bits (spec §4.2: `kind` derived from
`mode`). -/
def kindFromMode (mode : Nat) : FileKind :=
  if mode &&& S_IFMT = S_IFREG then FileKind.regFile
  else if mode &&& S_IFMT = S_IFDIR then FileKind.directory
  else FileKind.symlink

/-- Update the store at one inode number. -/
def setInode (s : FSState) (ino : Nat) (v : Inode) : FSState :=
  { s with store := fun j => if j = ino then some v else s.store j }

/-- Modelled from the spec: `find(dir, name) -> inode_id | not-found` (§4.1),
a scan of `dir`'s payload for a matching name, returning the first match.
The C helper `wtfs_find_dentry` (in helper code outside `src/`) returns the
inode number, with `0` meaning not found. -/
def wtfs_find_dentry (s : FSState) (dirIno : Nat) (name : String) : Nat :=
  match s.store dirIno with
  | none => 0
  | some d =>
    match d.entries.find? (fun e => e.1 == name) with
    | none => 0
    | some e => e.2

/-- Modelled from the spec: `add(dir, inode_id, name) -> success |
error{NoSpace, NameTooLong, Duplicate}` (§4.1), appending a record; fails if
the name is empty or over-long, already exists, or `dir`'s payload has no
room. The C helper `wtfs_add_dentry` lives in helper code outside `src/`. -/
def wtfs_add_dentry (s : FSState) (dirIno ino : Nat) (name : String) :
    Except Err FSState :=
  match s.store dirIno with
  | none => Except.error Err.NotFound
  | some d =>
    if name.length = 0 ∨ s.nameMax < name.length then Except.error Err.NameTooLong
    else if (d.entries.find? (fun e => e.1 == name)).isSome then
      Except.error Err.Duplicate
    else if s.capacity ≤ d.entries.length then Except.error Err.NoSpace
    else Except.ok (setInode s dirIno { d with entries := d.entries ++ [(name, ino)] })

/-- Modelled from the spec: `remove(dir, name) -> success | error{NotFound}`
(§4.1), deleting the matching record. The C helper `wtfs_delete_dentry` lives
in helper code outside `src/`. -/
def wtfs_delete_dentry (s : FSState) (dirIno : Nat) (name : String) :
    Except Err FSState :=
  match s.store dirIno with
  | none => Except.error Err.NotFound
  | some d =>
    if (d.entries.find? (fun e => e.1 == name)).isSome then
      Except.ok (setInode s dirIno
        { d with entries := d.entries.filter (fun e => !(e.1 == name)) })
    else Except.error Err.NotFound

/-- Modelled from the spec: `new_inode(parent, mode, inline_data) -> Inode |
error{NoSpace, NoFreeInode}` (§4.2) — reserves a fresh identifier and writes
an initial record with `link_count = 0`, `kind` derived from `mode` and an
empty payload. The C helper `wtfs_new_inode` lives in helper code outside
`src/`. Returns the new inode number. -/
def wtfs_new_inode (s : FSState) (mode : Nat) : FSState × Except Err Nat :=
  if s.freeInodes = 0 then (s, Except.error Err.NoFreeInode)
  else
    let ino := s.nextIno
    let v : Inode :=
      { ino := ino, kind := kindFromMode mode, mode := mode,
        linkCount := 0, ctime := s.time, entries := [] }
    ({ s with store := fun j => if j = ino then some v else s.store j,
              nextIno := s.nextIno + 1,
              freeInodes := s.freeInodes - 1 },
     Except.ok ino)

/-- Modelled from the spec: `get(id) -> Inode | error{NotFound, Corrupt}`
(§4.2), the single cached representative for `id`. The C helper `wtfs_iget`
lives in helper code outside `src/`. -/
def wtfs_iget (s : FSState) (ino : Nat) : Except Err Inode :=
  match s.store ino with
  | some v => Except.ok v
  | none => Except.error Err.NotFound

/-- Modelled from the spec: dropping the last in-memory reference to an inode
whose `link_count` is `0` releases it — "a created-but-unlinked inode … has
`link_count = 0` and is immediately reclaimable" (§4.2), freeing its slot for
reuse. The kernel `iput` evicts and deletes a zero-link inode. -/
def iput (s : FSState) (ino : Nat) : FSState :=
  match s.store ino with
  | some v =>
    if v.linkCount = 0 then
      { s with store := fun j => if j = ino then none else s.store j,
               freeInodes := s.freeInodes + 1 }
    else s
  | none => s

/-- The kernel helper `inode_inc_link_count`: increment an inode's link
count. -/
def inode_inc_link_count (s : FSState) (ino : Nat) : FSState :=
  match s.store ino with
  | some v => setInode s ino { v with linkCount := v.linkCount + 1 }
  | none => s

/-- The kernel helper `inode_dec_link_count`: decrement an inode's link
count. -/
def inode_dec_link_count (s : FSState) (ino : Nat) : FSState :=
  match s.store ino with
  | some v => setInode s ino { v with linkCount := v.linkCount - 1 }
  | none => s

/-- `wtfs_create` (src/src/inode.c:113–141): create a new regular file.
Allocates an inode with mode `mode | S_IFREG`, adds a directory entry to the
parent; on add failure, `iput`s the fresh inode and returns the error;
otherwise increments the link count and instantiates the dentry (modelled by
returning the new inode number). The `excl` argument is ignored, as in the
source. -/
def wtfs_create (s : FSState) (dirIno : Nat) (name : String) (mode : Nat)
    (excl : Bool) : FSState × Except Err Nat :=
  match wtfs_new_inode s (mode ||| S_IFREG) with
  | (s0, Except.error e) => (s0, Except.error e)
  | (s1, Except.ok ino) =>
    match wtfs_add_dentry s1 dirIno ino name with
    | Except.error e => (iput s1 ino, Except.error e)
    | Except.ok s2 => (inode_inc_link_count s2 ino, Except.ok ino)

/-- `wtfs_lookup` (src/src/inode.c:152–172): look up a name in a parent
directory. If `wtfs_find_dentry` returns a non-zero inode number, the inode
is instantiated with `wtfs_iget` (propagating its error); `d_add` is called
whether or not the inode was found, modelled by returning `some` the bound
inode or `none` for a negative dentry. -/
def wtfs_lookup (s : FSState) (dirIno : Nat) (name : String) :
    Except Err (Option Inode) :=
  let ino := wtfs_find_dentry s dirIno name
  if ino ≠ 0 then
    match wtfs_iget s ino with
    | Except.error e => Except.error e
    | Except.ok v => Except.ok (some v)
  else Except.ok none

/-- `wtfs_unlink` (src/src/inode.c:182–200): delete a dentry. `targetIno`
models `d_inode(dentry)`, the inode the dentry is bound to. If
`wtfs_delete_dentry` fails the error is returned at once; otherwise the
target's ctime is set from the parent's and its link count decremented. -/
def wtfs_unlink (s : FSState) (dirIno : Nat) (name : String) (targetIno : Nat) :
    FSState × Except Err Unit :=
  match wtfs_delete_dentry s dirIno name with
  | Except.error e => (s, Except.error e)
  | Except.ok s1 =>
    let dctime := match s1.store dirIno with
      | some d => d.ctime
      | none => 0
    let s2 := match s1.store targetIno with
      | some v => setInode s1 targetIno { v with ctime := dctime }
      | none => s1
    (inode_dec_link_count s2 targetIno, Except.ok ())

/-- `wtfs_mkdir` (src/src/inode.c:211–248): create a new directory. Allocates
an inode with mode `mode | S_IFDIR`, adds `.` and `..` entries to the new
inode's own payload, then an entry in the parent; any add failure `iput`s the
new inode and returns the error; on success the link count is incremented
once and the dentry instantiated (modelled by returning the inode number). -/
def wtfs_mkdir (s : FSState) (dirIno : Nat) (name : String) (mode : Nat) :
    FSState × Except Err Nat :=
  match wtfs_new_inode s (mode ||| S_IFDIR) with
  | (s0, Except.error e) => (s0, Except.error e)
  | (s1, Except.ok ino) =>
    match wtfs_add_dentry s1 ino ino "." with
    | Except.error e => (iput s1 ino, Except.error e)
    | Except.ok s2 =>
      match wtfs_add_dentry s2 ino dirIno ".." with
      | Except.error e => (iput s2 ino, Except.error e)
      | Except.ok s3 =>
        match wtfs_add_dentry s3 dirIno ino name with
        | Except.error e => (iput s3 ino, Except.error e)
        | Except.ok s4 => (inode_inc_link_count s4 ino, Except.ok ino)

/-- Well-formedness of a filesystem state: the fresh-inode counter is
positive and strictly above every allocated inode number (so identifiers are
non-zero and allocation is fresh), every stored inode records its own number,
and every directory entry references a non-zero, already-allocated inode
number. -/
def WF (s : FSState) : Prop :=
  0 < s.nextIno ∧
  (∀ i, s.nextIno ≤ i → s.store i = none) ∧
  (∀ i v, s.store i = some v →
    v.ino = i ∧ ∀ e ∈ v.entries, e.2 ≠ 0 ∧ e.2 < s.nextIno) ∧
  s.store 0 = none

/-- Number of entries of the directory stored at inode number `i` whose
target is `ino` (0 when nothing is stored at `i`). -/
def refCount (s : FSState) (ino i : Nat) : Nat :=
  match s.store i with
  | some v => (v.entries.filter (fun e => e.2 = ino)).length
  | none => 0

/-- Number of directory entries, across all directories of the state, that
name inode `ino` (spec §3's reading of `link_count`). Entries reference only
inode numbers below `nextIno` in a well-formed state, so ranging over
`[0, nextIno)` counts them all. -/
def countRefs (s : FSState) (ino : Nat) : Nat :=
  ((List.range s.nextIno).map (refCount s ino)).sum

/-- A root directory inode holding only its two synthetic entries. -/
def root0 : Inode :=
  { ino := 1, kind := FileKind.directory, mode := 0x41ED, linkCount := 1,
    ctime := 5, entries := [(".", 1), ("..", 1)] }

/-- A small well-formed state: just the root directory, with room to spare. -/
def c0 : FSState :=
  { store := fun j => if j = 1 then some root0 else none,
    nextIno := 2, freeInodes := 4, capacity := 8, nameMax := 56, time := 7 }

/-- Like `c0` but with a directory payload capacity of 2, so the root (which
already holds `.` and `..`) is full and any further entry-add fails with
`NoSpace`. -/
def cFull : FSState :=
  { store := fun j => if j = 1 then some root0 else none,
    nextIno := 2, freeInodes := 4, capacity := 2, nameMax := 56, time := 7 }

/-- An empty subdirectory inode (inode number 2, parent inode 1). -/
def dir2 : Inode :=
  { ino := 2, kind := FileKind.directory, mode := 0x41ED, linkCount := 1,
    ctime := 3, entries := [(".", 2), ("..", 1)] }

/-- A root directory that names the subdirectory `dir2` under entry `d`. -/
def rootSub : Inode :=
  { ino := 1, kind := FileKind.directory, mode := 0x41ED, linkCount := 1,
    ctime := 5, entries := [(".", 1), ("..", 1), ("d", 2)] }

/-- A well-formed state with a root directory and one subdirectory `d`. -/
def cSub : FSState :=
  { store := fun j => if j = 1 then some rootSub else if j = 2 then some dir2 else none,
    nextIno := 3, freeInodes := 4, capacity := 8, nameMax := 56, time := 9 }

/-- A root directory with a dangling entry `ghost` naming inode 9, which is
not present in the store. -/
def rootDangling : Inode :=
  { ino := 1, kind := FileKind.directory, mode := 0x41ED, linkCount := 1,
    ctime := 5, entries := [(".", 1), ("..", 1), ("ghost", 9)] }

/-- A (deliberately ill-formed) state whose root has a dangling entry, so a
lookup of that name finds an inode number whose instantiation fails. -/
def cDangling : FSState :=
  { store := fun j => if j = 1 then some rootDangling else none,
    nextIno := 2, freeInodes := 4, capacity := 8, nameMax := 56, time := 7 }

deriving instance DecidableEq for Except

lemma or_mask_eq (m c : Nat) (hm : m &&& S_IFMT = 0) (hc : c &&& S_IFMT = c) :
    (m ||| c) &&& S_IFMT = c := by
  refine Nat.eq_of_testBit_eq fun i => ?_
  have h1 := congrArg (fun x => Nat.testBit x i) hm
  have h2 := congrArg (fun x => Nat.testBit x i) hc
  simp only [Nat.testBit_and, Nat.testBit_or, Nat.zero_testBit] at h1 h2 ⊢
  cases hmi : Nat.testBit m i <;> cases hci : Nat.testBit c i <;>
    cases hsi : Nat.testBit S_IFMT i <;> simp_all

lemma kindFromMode_reg (m : Nat) (hm : m &&& S_IFMT = 0) :
    kindFromMode (m ||| S_IFREG) = FileKind.regFile := by
  unfold kindFromMode
  rw [or_mask_eq m S_IFREG hm (by decide)]
  simp

lemma lt_nextIno_of_store (s : FSState) (i : Nat) (v : Inode) (hWF : WF s)
    (h : s.store i = some v) : i < s.nextIno := by
  by_contra hc
  rw [hWF.2.1 i (Nat.le_of_not_lt hc)] at h
  exact Option.noConfusion h

lemma create_success (s : FSState) (dirIno : Nat) (name : String) (mode : Nat)
    (excl : Bool) (d : Inode)
    (hWF : WF s)
    (hfree : s.freeInodes ≠ 0)
    (hdir : s.store dirIno = some d)
    (hlen : name.length ≠ 0) (hmax : name.length ≤ s.nameMax)
    (habs : d.entries.find? (fun e => e.1 == name) = none)
    (hroom : d.entries.length < s.capacity) :
    (wtfs_create s dirIno name mode excl).2 = Except.ok s.nextIno ∧
    (wtfs_create s dirIno name mode excl).1.store s.nextIno =
      some { ino := s.nextIno, kind := kindFromMode (mode ||| S_IFREG),
             mode := mode ||| S_IFREG, linkCount := 1, ctime := s.time,
             entries := [] } ∧
    (wtfs_create s dirIno name mode excl).1.store dirIno =
      some { d with entries := d.entries ++ [(name, s.nextIno)] } := by
  have hdlt : dirIno < s.nextIno := lt_nextIno_of_store s dirIno d hWF hdir
  have hne : dirIno ≠ s.nextIno := Nat.ne_of_lt hdlt
  simp only [wtfs_create, wtfs_new_inode, if_neg hfree]
  simp only [wtfs_add_dentry, if_neg hne, hdir, habs]
  simp only [not_or] at *
  rw [if_neg (by push_neg; exact ⟨hlen, hmax⟩)]
  simp only [Option.isSome_none, Bool.false_eq_true, if_false, if_neg (Nat.not_le.mpr hroom)]
  simp only [inode_inc_link_count, setInode, if_pos rfl, if_neg hne]
  simp [hne, Ne.symm hne]

/-- C1: For every directory `dir`, name absent from `dir`, and permission
mode, after a successful `create(dir, name, mode)`, `lookup(dir, name)`
returns an inode whose `link_count` equals 1 and whose kind is
regular-file. -/
theorem create_then_lookup_linkCount_one_regFile
    (s : FSState) (dirIno : Nat) (name : String) (mode : Nat) (excl : Bool)
    (d : Inode)
    (hWF : WF s) (hfree : s.freeInodes ≠ 0) (hdir : s.store dirIno = some d)
    (hlen : name.length ≠ 0) (hmax : name.length ≤ s.nameMax)
    (habs : d.entries.find? (fun e => e.1 == name) = none)
    (hroom : d.entries.length < s.capacity)
    (hmode : mode &&& S_IFMT = 0) :
    (wtfs_create s dirIno name mode excl).2 = Except.ok s.nextIno ∧
    ∃ v, wtfs_lookup (wtfs_create s dirIno name mode excl).1 dirIno name =
        Except.ok (some v) ∧
      v.linkCount = 1 ∧ v.kind = FileKind.regFile := by
  obtain ⟨hret, hsnew, hsdir⟩ :=
    create_success s dirIno name mode excl d hWF hfree hdir hlen hmax habs hroom
  have hNz : s.nextIno ≠ 0 := Nat.pos_iff_ne_zero.mp hWF.1
  have hfind :
      wtfs_find_dentry (wtfs_create s dirIno name mode excl).1 dirIno name =
        s.nextIno := by
    simp only [wtfs_find_dentry, hsdir]
    rw [List.find?_append, habs]
    simp
  refine ⟨hret,
    { ino := s.nextIno, kind := kindFromMode (mode ||| S_IFREG),
      mode := mode ||| S_IFREG, linkCount := 1, ctime := s.time, entries := [] },
    ?_, rfl, kindFromMode_reg mode hmode⟩
  simp only [wtfs_lookup, hfind, if_pos hNz, wtfs_iget, hsnew]

/-- C7: For every directory `dir` and every name, `lookup(dir, name)` with
the name absent from `dir` returns a not-found result (a negative dentry,
modelled by `Except.ok none`) and never an error: absence of the name is not
an error condition. -/
theorem lookup_absent_returns_none
    (s : FSState) (dirIno : Nat) (name : String) (d : Inode)
    (hdir : s.store dirIno = some d)
    (habs : d.entries.find? (fun e => e.1 == name) = none) :
    wtfs_lookup s dirIno name = Except.ok none := by
  simp [wtfs_lookup, wtfs_find_dentry, hdir, habs]

/-- C8: For every `unlink(dir, name)` call in which the entry-remove step
fails, unlink returns that error before mutating the target inode: the whole
state — in particular the target's `link_count` and `ctime` — is exactly the
input state. -/
theorem unlink_remove_failure_no_mutation
    (s : FSState) (dirIno targetIno : Nat) (name : String) (e : Err)
    (hfail : wtfs_delete_dentry s dirIno name = Except.error e) :
    wtfs_unlink s dirIno name targetIno = (s, Except.error e) := by
  simp [wtfs_unlink, hfail]

/-- C9: For all inputs, the result and state effects of `wtfs_create` are
identical whether the `excl` argument is true or false: the
exclusive-creation flag is never consulted, so any duplicate-name rejection
comes solely from the entry-add step. -/
theorem create_ignores_excl
    (s : FSState) (dirIno : Nat) (name : String) (mode : Nat) :
    wtfs_create s dirIno name mode true = wtfs_create s dirIno name mode false :=
  rfl

/-- C10: If `lookup(dir, name)` finds the name (`wtfs_find_dentry` returns a
non-zero inode number) but instantiating the inode (`wtfs_iget`) fails,
lookup propagates that error to the caller without binding the dentry. -/
theorem lookup_present_iget_failure_propagates
    (s : FSState) (dirIno t : Nat) (name : String) (e : Err)
    (hfind : wtfs_find_dentry s dirIno name = t) (ht : t ≠ 0)
    (higet : wtfs_iget s t = Except.error e) :
    wtfs_lookup s dirIno name = Except.error e := by
  simp [wtfs_lookup, hfind, ht, higet]

/-- C2: For every `create(dir, name, mode)` call in which the
directory-entry add step fails after the inode was allocated (allocation
succeeded, but the call returned an error), create returns the add step's
error, the freshly allocated inode is released (its `link_count` is still 0,
so `iput` reclaims it), and the state — in particular `dir`'s payload — is
unchanged but for the advanced allocation counter: no new entry named `name`
exists. -/
theorem create_add_failure_rollback
    (s : FSState) (dirIno : Nat) (name : String) (mode : Nat) (excl : Bool)
    (s' : FSState) (e : Err)
    (hWF : WF s) (hfree : s.freeInodes ≠ 0)
    (hrun : wtfs_create s dirIno name mode excl = (s', Except.error e)) :
    (∃ s1, wtfs_new_inode s (mode ||| S_IFREG) = (s1, Except.ok s.nextIno) ∧
      wtfs_add_dentry s1 dirIno s.nextIno name = Except.error e) ∧
    s'.store = s.store ∧ s'.store s.nextIno = none ∧
    s'.freeInodes = s.freeInodes ∧ s'.nextIno = s.nextIno + 1 := by
  have hfresh : s.store s.nextIno = none := hWF.2.1 _ (le_refl _)
  simp only [wtfs_create, wtfs_new_inode, if_neg hfree] at hrun
  split at hrun
  case _ e' hadd =>
    rw [Prod.mk.injEq] at hrun
    obtain ⟨hs', he⟩ := hrun
    cases he
    have hstore : s'.store = s.store := by
      rw [← hs']
      funext j
      simp only [iput, if_pos rfl]
      by_cases hj : j = s.nextIno
      · subst hj; simp [hfresh]
      · simp [hj]
    refine ⟨⟨_, by simp [wtfs_new_inode, if_neg hfree], hadd⟩, hstore, by rw [hstore]; exact hfresh, ?_, ?_⟩
    · rw [← hs']
      simp only [iput, if_pos rfl]
      show s.freeInodes - 1 + 1 = s.freeInodes
      omega
    · rw [← hs']
      simp [iput]
  case _ s2 hadd =>
    rw [Prod.mk.injEq] at hrun
    exact absurd hrun.2 (by simp)

lemma setInode_store_ne (s : FSState) (i j : Nat) (v : Inode) (h : j ≠ i) :
    (setInode s i v).store j = s.store j := if_neg h

lemma setInode_store_eq (s : FSState) (i : Nat) (v : Inode) :
    (setInode s i v).store i = some v := if_pos rfl

lemma iput_rollback (s t s' : FSState) (v : Inode)
    (hs' : iput t s.nextIno = s')
    (hv : t.store s.nextIno = some v) (hlc : v.linkCount = 0)
    (hst : ∀ j, j ≠ s.nextIno → t.store j = s.store j)
    (hfresh : s.store s.nextIno = none)
    (hni : t.nextIno = s.nextIno + 1)
    (hfi : t.freeInodes = s.freeInodes - 1)
    (hpos : s.freeInodes ≠ 0) :
    s'.store = s.store ∧ s'.store s.nextIno = none ∧
    s'.freeInodes = s.freeInodes ∧ s'.nextIno = s.nextIno + 1 := by
  subst hs'
  simp only [iput, hv, hlc, if_pos rfl]
  have h1 : (fun j => if j = s.nextIno then none else t.store j) = s.store := by
    funext j
    by_cases hj : j = s.nextIno
    · subst hj; simp [hfresh]
    · simp [hj, hst j hj]
  refine ⟨h1, ?_, ?_, hni⟩
  · show (fun j => if j = s.nextIno then none else t.store j) s.nextIno = none
    simp
  · show t.freeInodes + 1 = s.freeInodes
    omega

lemma add_dentry_ok (s : FSState) (dirIno ino : Nat) (nm : String)
    (s2 : FSState) (d : Inode)
    (hdir : s.store dirIno = some d)
    (h : wtfs_add_dentry s dirIno ino nm = Except.ok s2) :
    s2 = setInode s dirIno { d with entries := d.entries ++ [(nm, ino)] } := by
  simp only [wtfs_add_dentry, hdir] at h
  split at h
  · exact absurd h (by simp)
  · split at h
    · exact absurd h (by simp)
    · split at h
      · exact absurd h (by simp)
      · exact (Except.ok.injEq _ _).mp h.symm

/-- C3: For every `mkdir(dir, name, mode)` call in which any of the three
entry-add steps (adding `.` to the new inode, adding `..` to the new inode,
adding `name` to `dir`) fails, mkdir releases the new inode — the entries
already written to its payload vanish with it — and leaves the namespace
(every stored inode, including `dir`'s payload) exactly as it was before the
call began; only the allocation counter has advanced. -/
theorem mkdir_add_failure_rollback
    (s : FSState) (dirIno : Nat) (name : String) (mode : Nat)
    (s' : FSState) (e : Err)
    (hWF : WF s) (hfree : s.freeInodes ≠ 0)
    (hrun : wtfs_mkdir s dirIno name mode = (s', Except.error e)) :
    s'.store = s.store ∧ s'.store s.nextIno = none ∧
    s'.freeInodes = s.freeInodes ∧ s'.nextIno = s.nextIno + 1 := by
  have hfresh : s.store s.nextIno = none := hWF.2.1 _ (le_refl _)
  simp only [wtfs_mkdir, wtfs_new_inode, if_neg hfree] at hrun
  split at hrun
  case _ e1 hadd1 =>
    rw [Prod.mk.injEq] at hrun
    obtain ⟨hs', he⟩ := hrun; cases he
    exact iput_rollback s _ s' _ hs' (if_pos rfl) rfl
      (fun j hj => if_neg hj) hfresh rfl rfl hfree
  case _ s2 hadd1 =>
    have hs2 := add_dentry_ok _ s.nextIno s.nextIno "." s2 _ (if_pos rfl) hadd1
    subst hs2
    split at hrun
    case _ e2 hadd2 =>
      rw [Prod.mk.injEq] at hrun
      obtain ⟨hs', he⟩ := hrun; cases he
      exact iput_rollback s _ s' _ hs' (setInode_store_eq _ _ _) rfl
        (fun j hj => by rw [setInode_store_ne _ _ _ _ hj]; exact if_neg hj)
        hfresh rfl rfl hfree
    case _ s3 hadd2 =>
      have hs3 := add_dentry_ok _ s.nextIno dirIno ".." s3 _
        (setInode_store_eq _ _ _) hadd2
      subst hs3
      split at hrun
      case _ e3 hadd3 =>
        rw [Prod.mk.injEq] at hrun
        obtain ⟨hs', he⟩ := hrun; cases he
        exact iput_rollback s _ s' _ hs' (setInode_store_eq _ _ _) rfl
          (fun j hj => by
            rw [setInode_store_ne _ _ _ _ hj, setInode_store_ne _ _ _ _ hj]
            exact if_neg hj)
          hfresh rfl rfl hfree
      case _ s4 hadd3 =>
        exact absurd (congrArg Prod.snd hrun) (by simp)

lemma mkdir_success
    (s : FSState) (dirIno : Nat) (name : String) (mode : Nat) (d : Inode)
    (hWF : WF s) (hfree : s.freeInodes ≠ 0) (hdir : s.store dirIno = some d)
    (hcap : 2 ≤ s.capacity) (hnm : 2 ≤ s.nameMax)
    (hlen : name.length ≠ 0) (hmax : name.length ≤ s.nameMax)
    (habs : d.entries.find? (fun e => e.1 == name) = none)
    (hroom : d.entries.length < s.capacity) :
    (wtfs_mkdir s dirIno name mode).2 = Except.ok s.nextIno ∧
    (wtfs_mkdir s dirIno name mode).1.store s.nextIno =
      some { ino := s.nextIno, kind := kindFromMode (mode ||| S_IFDIR),
             mode := mode ||| S_IFDIR, linkCount := 1, ctime := s.time,
             entries := [(".", s.nextIno), ("..", dirIno)] } ∧
    (wtfs_mkdir s dirIno name mode).1.store dirIno =
      some { d with entries := d.entries ++ [(name, s.nextIno)] } ∧
    (∀ j, j ≠ s.nextIno → j ≠ dirIno →
      (wtfs_mkdir s dirIno name mode).1.store j = s.store j) ∧
    (wtfs_mkdir s dirIno name mode).1.nextIno = s.nextIno + 1 := by
  have hdlt : dirIno < s.nextIno := lt_nextIno_of_store s dirIno d hWF hdir
  have hne : dirIno ≠ s.nextIno := Nat.ne_of_lt hdlt
  have hne' : s.nextIno ≠ dirIno := Ne.symm hne
  have hl1 : ¬((".").length = 0 ∨ s.nameMax < (".").length) := by
    rw [show (".").length = 1 from rfl]; push_neg
    exact ⟨one_ne_zero, by omega⟩
  have hl2 : ¬(("..").length = 0 ∨ s.nameMax < ("..").length) := by
    rw [show ("..").length = 2 from rfl]; push_neg
    exact ⟨two_ne_zero, by omega⟩
  have hl3 : ¬(name.length = 0 ∨ s.nameMax < name.length) := by
    push_neg; exact ⟨hlen, hmax⟩
  have hc1 : ¬ s.capacity ≤ 0 := by omega
  have hc2 : ¬ s.capacity ≤ 1 := by omega
  simp only [wtfs_mkdir, wtfs_new_inode, if_neg hfree]
  simp only [wtfs_add_dentry, if_pos rfl, if_true, if_neg hl1, List.find?_nil,
    Option.isSome_none, Bool.false_eq_true, if_false, List.length_nil,
    if_neg hc1, setInode, List.nil_append]
  have hf2 : List.find? (fun e => e.1 == "..") [(".", s.nextIno)] = none := by
    have hb : ((".":String) == "..") = false := by decide
    rw [List.find?_cons_of_neg _ (by simp [hb])]; rfl
  simp only [hf2, if_neg hl2, List.length_singleton, if_neg hc2,
    Option.isSome_none, Bool.false_eq_true, if_false, if_neg hne, hdir,
    if_neg hl3, habs, if_neg (Nat.not_le.mpr hroom)]
  refine ⟨trivial,
    by simp [inode_inc_link_count, setInode, hne'],
    by simp [inode_inc_link_count, setInode, hne, hne'],
    fun j hj1 hj2 => by simp [inode_inc_link_count, setInode, hne', hj1, hj2],
    by simp [inode_inc_link_count, setInode, hne']⟩

/-- C6: After every successful `mkdir(dir, "sub", mode)`,
`lookup(sub, ".")` resolves to `sub` itself, `lookup(sub, "..")` resolves to
`dir`, and `dir`'s `link_count` is unchanged by the child's internal `.` and
`..` entries; those two synthetic entries are written into the new
directory's own payload during the mkdir call itself. -/
theorem mkdir_child_dot_dotdot
    (s : FSState) (dirIno : Nat) (name : String) (mode : Nat) (d : Inode)
    (hWF : WF s) (hfree : s.freeInodes ≠ 0) (hdir : s.store dirIno = some d)
    (hcap : 2 ≤ s.capacity) (hnm : 2 ≤ s.nameMax)
    (hlen : name.length ≠ 0) (hmax : name.length ≤ s.nameMax)
    (habs : d.entries.find? (fun e => e.1 == name) = none)
    (hroom : d.entries.length < s.capacity) :
    (wtfs_mkdir s dirIno name mode).2 = Except.ok s.nextIno ∧
    (∃ child, wtfs_lookup (wtfs_mkdir s dirIno name mode).1 s.nextIno "." =
        Except.ok (some child) ∧ child.ino = s.nextIno ∧
        child.entries = [(".", s.nextIno), ("..", dirIno)]) ∧
    (∃ parent, wtfs_lookup (wtfs_mkdir s dirIno name mode).1 s.nextIno ".." =
        Except.ok (some parent) ∧ parent.ino = dirIno ∧
        parent.linkCount = d.linkCount) := by
  obtain ⟨hret, hchild, hparent, hother, hni⟩ :=
    mkdir_success s dirIno name mode d hWF hfree hdir hcap hnm hlen hmax habs hroom
  have hino0 : s.nextIno ≠ 0 := Nat.pos_iff_ne_zero.mp hWF.1
  have hdir0 : dirIno ≠ 0 := by
    intro h
    rw [h, hWF.2.2.2] at hdir
    exact Option.noConfusion hdir
  have hdino : d.ino = dirIno := (hWF.2.2.1 dirIno d hdir).1
  refine ⟨hret, ?_, ?_⟩
  · have hfind : wtfs_find_dentry (wtfs_mkdir s dirIno name mode).1 s.nextIno "." =
        s.nextIno := by
      simp only [wtfs_find_dentry, hchild]
      rw [List.find?_cons_of_pos _ (by simp)]
    refine Exists.intro
      { ino := s.nextIno, kind := kindFromMode (mode ||| S_IFDIR),
        mode := mode ||| S_IFDIR, linkCount := 1, ctime := s.time,
        entries := [(".", s.nextIno), ("..", dirIno)] } ⟨?_, rfl, rfl⟩
    simp only [wtfs_lookup, hfind, if_pos hino0, wtfs_iget, hchild]
  · have hfind : wtfs_find_dentry (wtfs_mkdir s dirIno name mode).1 s.nextIno ".." =
        dirIno := by
      simp only [wtfs_find_dentry, hchild]
      have hb : ((".":String) == "..") = false := by decide
      rw [List.find?_cons_of_neg _ (by simp [hb]), List.find?_cons_of_pos _ (by simp)]
    refine Exists.intro
      { d with entries := d.entries ++ [(name, s.nextIno)] } ⟨?_, hdino, rfl⟩
    simp only [wtfs_lookup, hfind, if_pos hdir0, wtfs_iget, hparent]

lemma sum_map_range_zero (f : Nat → Nat) (n : Nat) (h0 : ∀ i, i < n → f i = 0) :
    ((List.range n).map f).sum = 0 := by
  induction n with
  | zero => rfl
  | succ m ih =>
    rw [List.range_succ, List.map_append, List.sum_append,
      ih (fun i hi => h0 i (Nat.lt_succ_of_lt hi))]
    simp [h0 m (Nat.lt_succ_self m)]

lemma sum_map_range_single (f : Nat → Nat) (n k : Nat) (hk : k < n)
    (h0 : ∀ i, i < n → i ≠ k → f i = 0) :
    ((List.range n).map f).sum = f k := by
  induction n with
  | zero => omega
  | succ m ih =>
    rw [List.range_succ, List.map_append, List.sum_append]
    by_cases hkm : k = m
    · subst hkm
      rw [sum_map_range_zero f k
        (fun i hi => h0 i (Nat.lt_succ_of_lt hi) (Nat.ne_of_lt hi))]
      simp
    · rw [ih (Nat.lt_of_le_of_ne (Nat.le_of_lt_succ hk) hkm)
        (fun i hi hik => h0 i (Nat.lt_succ_of_lt hi) hik)]
      simp [h0 m (Nat.lt_succ_self m) (fun h => hkm h.symm)]

/-- C4 (amended): After every successful `mkdir(dir, name, mode)`, the new
directory's `link_count` equals 1 — the single increment for the parent's
entry — although two directory entries across all directories name it (the
parent's entry for `name` plus its own `.` self-reference, `countRefs = 2`):
the `.` self-reference is not reflected in `link_count`. -/
theorem mkdir_linkCount_one_while_two_entries_name_it
    (s : FSState) (dirIno : Nat) (name : String) (mode : Nat) (d : Inode)
    (hWF : WF s) (hfree : s.freeInodes ≠ 0) (hdir : s.store dirIno = some d)
    (hcap : 2 ≤ s.capacity) (hnm : 2 ≤ s.nameMax)
    (hlen : name.length ≠ 0) (hmax : name.length ≤ s.nameMax)
    (habs : d.entries.find? (fun e => e.1 == name) = none)
    (hroom : d.entries.length < s.capacity) :
    (wtfs_mkdir s dirIno name mode).2 = Except.ok s.nextIno ∧
    ((wtfs_mkdir s dirIno name mode).1.store s.nextIno).map Inode.linkCount =
      some 1 ∧
    countRefs (wtfs_mkdir s dirIno name mode).1 s.nextIno = 2 := by
  obtain ⟨hret, hchild, hparent, hother, hni⟩ :=
    mkdir_success s dirIno name mode d hWF hfree hdir hcap hnm hlen hmax habs hroom
  have hdlt : dirIno < s.nextIno := lt_nextIno_of_store s dirIno d hWF hdir
  have hne : dirIno ≠ s.nextIno := Nat.ne_of_lt hdlt
  refine ⟨hret, by rw [hchild]; rfl, ?_⟩
  rw [countRefs, hni, List.range_succ, List.map_append, List.sum_append]
  have hselfcount : refCount (wtfs_mkdir s dirIno name mode).1 s.nextIno s.nextIno = 1 := by
    simp only [refCount, hchild, List.filter_cons, hne]
    simp
  have hdircount : refCount (wtfs_mkdir s dirIno name mode).1 s.nextIno dirIno = 1 := by
    simp only [refCount, hparent]
    rw [List.filter_append]
    rw [List.filter_eq_nil_iff.mpr (fun e he => by
      have := ((hWF.2.2.1 dirIno d hdir).2 e he).2
      simp only [decide_eq_true_eq]
      omega)]
    simp
  have hzero : ∀ i, i < s.nextIno → i ≠ dirIno →
      refCount (wtfs_mkdir s dirIno name mode).1 s.nextIno i = 0 := by
    intro i hi hik
    have hio : i ≠ s.nextIno := Nat.ne_of_lt hi
    simp only [refCount, hother i hio hik]
    cases hsi : s.store i with
    | none => rfl
    | some v =>
      have hnil : v.entries.filter (fun e => e.2 = s.nextIno) = [] :=
        List.filter_eq_nil_iff.mpr (fun e he => by
          have := ((hWF.2.2.1 i v hsi).2 e he).2
          simp only [decide_eq_true_eq]
          omega)
      simp [hnil]
  rw [List.map_singleton, List.sum_singleton, hselfcount,
    sum_map_range_single _ s.nextIno dirIno hdlt hzero, hdircount]

lemma wf_c0 : WF c0 := by
  refine ⟨by decide, fun i h => ?_, fun i v h => ?_, rfl⟩
  · have h2 : (2:Nat) ≤ i := h
    show (if i = 1 then some root0 else none) = none
    rw [if_neg (by omega)]
  · have hi : i = 1 := by
      by_contra hne
      have h' : (if i = 1 then some root0 else none) = some v := h
      rw [if_neg hne] at h'
      exact Option.noConfusion h'
    subst hi
    have h' : (if (1:Nat) = 1 then some root0 else none) = some v := h
    rw [if_pos rfl] at h'
    cases h'
    exact ⟨rfl, by decide⟩

lemma wf_cFull : WF cFull := by
  refine ⟨by decide, fun i h => ?_, fun i v h => ?_, rfl⟩
  · have h2 : (2:Nat) ≤ i := h
    show (if i = 1 then some root0 else none) = none
    rw [if_neg (by omega)]
  · have hi : i = 1 := by
      by_contra hne
      have h' : (if i = 1 then some root0 else none) = some v := h
      rw [if_neg hne] at h'
      exact Option.noConfusion h'
    subst hi
    have h' : (if (1:Nat) = 1 then some root0 else none) = some v := h
    rw [if_pos rfl] at h'
    cases h'
    exact ⟨rfl, by decide⟩

/-- C4 counterexample: a concrete successful `mkdir` after which the new
directory's `link_count` is 1 while 2 directory entries name it — refuting
the claim that `link_count` equals the number of directory entries naming
the new directory (which would be 2). -/
theorem mkdir_linkCount_counterexample :
    (wtfs_mkdir c0 1 "sub" 493).2 = Except.ok 2 ∧
    ((wtfs_mkdir c0 1 "sub" 493).1.store 2).map Inode.linkCount = some 1 ∧
    countRefs (wtfs_mkdir c0 1 "sub" 493).1 2 = 2 := by
  refine ⟨by decide, by decide, by decide⟩

/-- C5 counterexample: a concrete `unlink` whose target is a directory does
not fail with `InvalidKind`: it succeeds, removes the entry, decrements the
target's `link_count` (1 to 0) and rewrites its `ctime` (3 to 5) — refuting
the claim that such a call fails and leaves everything unchanged. -/
theorem unlink_on_directory_counterexample :
    (cSub.store 2).map Inode.kind = some FileKind.directory ∧
    (wtfs_unlink cSub 1 "d" 2).2 = Except.ok () ∧
    ((wtfs_unlink cSub 1 "d" 2).1.store 2).map Inode.linkCount = some 0 ∧
    ((wtfs_unlink cSub 1 "d" 2).1.store 2).map Inode.ctime = some 5 ∧
    wtfs_find_dentry (wtfs_unlink cSub 1 "d" 2).1 1 "d" = 0 := by
  refine ⟨by decide, by decide, by decide, by decide, by decide⟩

/-- C5 (amended): `wtfs_unlink` performs no kind check: a call whose target
is a directory succeeds exactly as for a regular file — the directory entry
is removed, the target's `link_count` is decremented and its `ctime` set
from the parent's; rejection of unlink on directories is left to the calling
framework (the VFS), not to this function. -/
theorem unlink_directory_no_kind_check
    (s : FSState) (dirIno t : Nat) (name : String) (d v : Inode)
    (hdir : s.store dirIno = some d)
    (hfound : (d.entries.find? (fun e => e.1 == name)).isSome = true)
    (ht : s.store t = some v) (htd : t ≠ dirIno)
    (hkind : v.kind = FileKind.directory) :
    (wtfs_unlink s dirIno name t).2 = Except.ok () ∧
    (wtfs_unlink s dirIno name t).1.store t =
      some { v with ctime := d.ctime, linkCount := v.linkCount - 1 } ∧
    wtfs_find_dentry (wtfs_unlink s dirIno name t).1 dirIno name = 0 := by
  have hgone : List.find? (fun e => e.1 == name)
      (d.entries.filter (fun e => !(e.1 == name))) = none := by
    rw [List.find?_eq_none]
    intro a ha
    have hmem := (List.mem_filter.mp ha).2
    simp only [Bool.not_eq_true'] at hmem
    simp [hmem]
  have hdt : dirIno ≠ t := Ne.symm htd
  simp only [wtfs_unlink, wtfs_delete_dentry, hdir, hfound, if_true,
    setInode_store_eq, setInode_store_ne _ _ _ _ htd, ht]
  refine ⟨trivial, ?_, ?_⟩
  · simp only [inode_dec_link_count, setInode_store_eq]
  · simp only [wtfs_find_dentry, inode_dec_link_count, setInode_store_eq,
      setInode_store_ne _ _ _ _ hdt]
    simp [hgone]

/-- C1 witness: the theorem applied to the concrete state `c0`, creating
`f` under the root. -/
theorem create_then_lookup_witness :
    WF c0 ∧ c0.freeInodes ≠ 0 ∧ c0.store 1 = some root0 ∧
    "f".length ≠ 0 ∧ "f".length ≤ c0.nameMax ∧
    root0.entries.find? (fun e => e.1 == "f") = none ∧
    root0.entries.length < c0.capacity ∧ (420 : Nat) &&& S_IFMT = 0 ∧
    ((wtfs_create c0 1 "f" 420 false).2 = Except.ok c0.nextIno ∧
     ∃ v, wtfs_lookup (wtfs_create c0 1 "f" 420 false).1 1 "f" =
        Except.ok (some v) ∧ v.linkCount = 1 ∧ v.kind = FileKind.regFile) :=
  ⟨wf_c0, by decide, rfl, by decide, by decide, by decide, by decide, by decide,
   create_then_lookup_linkCount_one_regFile c0 1 "f" 420 false root0 wf_c0
     (by decide) rfl (by decide) (by decide) (by decide) (by decide) (by decide)⟩

/-- C2 witness: the theorem applied to `cFull`, where the root directory is
full, so `wtfs_add_dentry` fails with `NoSpace` after allocation. -/
theorem create_add_failure_rollback_witness :
    WF cFull ∧ cFull.freeInodes ≠ 0 ∧
    (wtfs_create cFull 1 "f" 420 false).2 = Except.error Err.NoSpace ∧
    ((∃ s1, wtfs_new_inode cFull (420 ||| S_IFREG) = (s1, Except.ok cFull.nextIno) ∧
       wtfs_add_dentry s1 1 cFull.nextIno "f" = Except.error Err.NoSpace) ∧
     (wtfs_create cFull 1 "f" 420 false).1.store = cFull.store ∧
     (wtfs_create cFull 1 "f" 420 false).1.store cFull.nextIno = none ∧
     (wtfs_create cFull 1 "f" 420 false).1.freeInodes = cFull.freeInodes ∧
     (wtfs_create cFull 1 "f" 420 false).1.nextIno = cFull.nextIno + 1) := by
  have h2 : (wtfs_create cFull 1 "f" 420 false).2 = Except.error Err.NoSpace := by
    decide
  have hrun : wtfs_create cFull 1 "f" 420 false =
      ((wtfs_create cFull 1 "f" 420 false).1, Except.error Err.NoSpace) := by
    rw [← h2, Prod.mk.eta]
  exact ⟨wf_cFull, by decide, h2,
    create_add_failure_rollback cFull 1 "f" 420 false _ Err.NoSpace wf_cFull
      (by decide) hrun⟩

/-- C3 witness: the theorem applied to `cFull`, where the third add step
(the parent entry) fails with `NoSpace`. -/
theorem mkdir_add_failure_rollback_witness :
    WF cFull ∧ cFull.freeInodes ≠ 0 ∧
    (wtfs_mkdir cFull 1 "sub" 493).2 = Except.error Err.NoSpace ∧
    ((wtfs_mkdir cFull 1 "sub" 493).1.store = cFull.store ∧
     (wtfs_mkdir cFull 1 "sub" 493).1.store cFull.nextIno = none ∧
     (wtfs_mkdir cFull 1 "sub" 493).1.freeInodes = cFull.freeInodes ∧
     (wtfs_mkdir cFull 1 "sub" 493).1.nextIno = cFull.nextIno + 1) := by
  have h2 : (wtfs_mkdir cFull 1 "sub" 493).2 = Except.error Err.NoSpace := by
    decide
  have hrun : wtfs_mkdir cFull 1 "sub" 493 =
      ((wtfs_mkdir cFull 1 "sub" 493).1, Except.error Err.NoSpace) := by
    rw [← h2, Prod.mk.eta]
  exact ⟨wf_cFull, by decide, h2,
    mkdir_add_failure_rollback cFull 1 "sub" 493 _ Err.NoSpace wf_cFull
      (by decide) hrun⟩

/-- C4 witness: the amended theorem applied to `c0`, making `sub` under the
root. -/
theorem mkdir_linkCount_one_witness :
    WF c0 ∧ c0.freeInodes ≠ 0 ∧ c0.store 1 = some root0 ∧
    2 ≤ c0.capacity ∧ 2 ≤ c0.nameMax ∧
    "sub".length ≠ 0 ∧ "sub".length ≤ c0.nameMax ∧
    root0.entries.find? (fun e => e.1 == "sub") = none ∧
    root0.entries.length < c0.capacity ∧
    ((wtfs_mkdir c0 1 "sub" 493).2 = Except.ok c0.nextIno ∧
     ((wtfs_mkdir c0 1 "sub" 493).1.store c0.nextIno).map Inode.linkCount =
       some 1 ∧
     countRefs (wtfs_mkdir c0 1 "sub" 493).1 c0.nextIno = 2) :=
  ⟨wf_c0, by decide, rfl, by decide, by decide, by decide, by decide, by decide,
   by decide,
   mkdir_linkCount_one_while_two_entries_name_it c0 1 "sub" 493 root0 wf_c0
     (by decide) rfl (by decide) (by decide) (by decide) (by decide) (by decide)
     (by decide)⟩

/-- C5 witness: the amended theorem applied to `cSub`, unlinking the
subdirectory entry `d`. -/
theorem unlink_directory_no_kind_check_witness :
    cSub.store 1 = some rootSub ∧
    (rootSub.entries.find? (fun e => e.1 == "d")).isSome = true ∧
    cSub.store 2 = some dir2 ∧ (2:Nat) ≠ 1 ∧ dir2.kind = FileKind.directory ∧
    ((wtfs_unlink cSub 1 "d" 2).2 = Except.ok () ∧
     (wtfs_unlink cSub 1 "d" 2).1.store 2 =
       some { dir2 with ctime := rootSub.ctime,
                        linkCount := dir2.linkCount - 1 } ∧
     wtfs_find_dentry (wtfs_unlink cSub 1 "d" 2).1 1 "d" = 0) :=
  ⟨rfl, by decide, rfl, by decide, by decide,
   unlink_directory_no_kind_check cSub 1 2 "d" rootSub dir2 rfl (by decide) rfl
     (by decide) (by decide)⟩

/-- C6 witness: the theorem applied to `c0`, making `sub` under the root
(inode 1) and resolving `.` and `..` inside it. -/
theorem mkdir_child_dot_dotdot_witness :
    WF c0 ∧ c0.freeInodes ≠ 0 ∧ c0.store 1 = some root0 ∧
    2 ≤ c0.capacity ∧ 2 ≤ c0.nameMax ∧
    "sub".length ≠ 0 ∧ "sub".length ≤ c0.nameMax ∧
    root0.entries.find? (fun e => e.1 == "sub") = none ∧
    root0.entries.length < c0.capacity ∧
    ((wtfs_mkdir c0 1 "sub" 493).2 = Except.ok c0.nextIno ∧
     (∃ child, wtfs_lookup (wtfs_mkdir c0 1 "sub" 493).1 c0.nextIno "." =
        Except.ok (some child) ∧ child.ino = c0.nextIno ∧
        child.entries = [(".", c0.nextIno), ("..", 1)]) ∧
     (∃ parent, wtfs_lookup (wtfs_mkdir c0 1 "sub" 493).1 c0.nextIno ".." =
        Except.ok (some parent) ∧ parent.ino = 1 ∧
        parent.linkCount = root0.linkCount)) :=
  ⟨wf_c0, by decide, rfl, by decide, by decide, by decide, by decide, by decide,
   by decide,
   mkdir_child_dot_dotdot c0 1 "sub" 493 root0 wf_c0 (by decide) rfl (by decide)
     (by decide) (by decide) (by decide) (by decide) (by decide)⟩

/-- C7 witness: the theorem applied to `c0` and the absent name `nope`. -/
theorem lookup_absent_witness :
    c0.store 1 = some root0 ∧
    root0.entries.find? (fun e => e.1 == "nope") = none ∧
    wtfs_lookup c0 1 "nope" = Except.ok none :=
  ⟨rfl, by decide, lookup_absent_returns_none c0 1 "nope" root0 rfl (by decide)⟩

/-- C8 witness: the theorem applied to `c0` and the absent name `nope`, on
which the remove step fails with `NotFound`. -/
theorem unlink_remove_failure_witness :
    wtfs_delete_dentry c0 1 "nope" = Except.error Err.NotFound ∧
    wtfs_unlink c0 1 "nope" 1 = (c0, Except.error Err.NotFound) :=
  ⟨rfl, unlink_remove_failure_no_mutation c0 1 1 "nope" Err.NotFound rfl⟩

/-- C10 witness: the theorem applied to `cDangling`, whose root names the
absent inode 9 under `ghost`. -/
theorem lookup_iget_failure_witness :
    wtfs_find_dentry cDangling 1 "ghost" = 9 ∧ (9:Nat) ≠ 0 ∧
    wtfs_iget cDangling 9 = Except.error Err.NotFound ∧
    wtfs_lookup cDangling 1 "ghost" = Except.error Err.NotFound :=
  ⟨by decide, by decide, rfl,
   lookup_present_iget_failure_propagates cDangling 1 9 "ghost" Err.NotFound
     (by decide) (by decide) rfl⟩
